import Mathlib

/-!
Verification of the windowed request limiter of `backend/src/middleware/rateLimiter.js`
and of the error-handling middleware of `backend/src/middleware/errorHandler.js`.

Modelling conventions:
* Timestamps (`Date.now()`) are milliseconds, modelled as `Int`; the JS subtraction
  `now - cacheItem.startTime` is `Int` subtraction.
* Configuration values `windowMs` and `max` are JS numbers used only in comparisons,
  modelled as `Int` (this keeps non-positive configurations expressible).
* Per-key counters only ever start at 0 and are incremented by 1, so they are `Nat`,
  coerced to `Int` for the comparisons against `max`.
* The module-level `inMemoryCache` (a JS `Map`) and the Redis key space are modelled as
  association lists passed explicitly through each invocation; `Map.get`/`Map.set` and
  `GET`/`SET` become `mapGet`/`mapSet`.
* `EXPIRE key windowMs/1000` sets a time-to-live of `windowMs/1000` seconds, i.e. exactly
  `windowMs` milliseconds; since all times are kept in milliseconds the stored expiry
  instant is `now + windowMs`.
* Calling the exceeded `handler` (and returning without reaching `next()`) is
  `Decision.rejected`; falling through to `next()` is `Decision.admitted`.
-/

/-- One value of the module-level `inMemoryCache` map:
`{ count: 0, startTime: now }` objects of rateLimiter.js line 58. -/
structure CacheItem where
  count : Nat
  startTime : Int
  deriving Repr, DecidableEq

/-- One live Redis string key holding a counter, together with the expiry instant
(in ms) that the last `EXPIRE key windowMs/1000` installed. -/
structure RedisEntry where
  value : Nat
  expiresAt : Int
  deriving Repr, DecidableEq

/-- The in-memory fallback cache (`inMemoryCache`), as an association list. -/
abbrev Cache := List (String × CacheItem)

/-- The Redis key space restricted to the limiter's keys. -/
abbrev RedisStore := List (String × RedisEntry)

/-- JS `Map.get` / raw key lookup: first binding for the key, if any. -/
def mapGet {α : Type} : List (String × α) → String → Option α
  | [], _ => none
  | (k, v) :: rest, key => if k = key then some v else mapGet rest key

/-- JS `Map.set` / key write: replace the binding in place, or append a new one. -/
def mapSet {α : Type} : List (String × α) → String → α → List (String × α)
  | [], key, v => [(key, v)]
  | (k, w) :: rest, key, v =>
    if k = key then (key, v) :: rest else (k, w) :: mapSet rest key v

/-- `GET key` at time `now`: a key whose expiry instant has passed is absent
(Redis lazily deletes expired keys, so `GET` never sees them). -/
def redisGet (store : RedisStore) (key : String) (now : Int) : Option Nat :=
  match mapGet store key with
  | some e => if now ≤ e.expiresAt then some e.value else none
  | none => none

/-- The `MULTI … INCR key / EXPIRE key windowMs/1000 … EXEC` block
(rateLimiter.js lines 52–55): `INCR` creates an absent or expired key with value 1
and otherwise adds 1; `EXPIRE` then re-arms the expiry `windowMs` ms from `now`. -/
def redisIncrExpire (windowMs : Int) (store : RedisStore) (key : String) (now : Int) :
    RedisStore :=
  let v : Nat :=
    match redisGet store key now with
    | some v => v + 1
    | none => 1
  mapSet store key { value := v, expiresAt := now + windowMs }

/-- Whether one invocation ended in the exceeded `handler` (`rejected`) or fell
through to `next()` (`admitted`). -/
inductive Decision where
  | rejected
  | admitted
  deriving Repr, DecidableEq

/-- The Redis branch of one limiter invocation (rateLimiter.js lines 45–55):
read the current count; if present and `≥ max`, call the handler without touching
the store; otherwise atomically increment and re-arm the expiry, then fall through
to `next()`. -/
def redisStep (windowMs max : Int) (store : RedisStore) (key : String) (now : Int) :
    Decision × RedisStore :=
  match redisGet store key now with
  | some c =>
    if (c : Int) ≥ max then (Decision.rejected, store)
    else (Decision.admitted, redisIncrExpire windowMs store key now)
  | none => (Decision.admitted, redisIncrExpire windowMs store key now)

/-- The in-memory branch of one limiter invocation (rateLimiter.js lines 56–74).
The JS code mutates the `cacheItem` object in place, so a window reset performed on
an object that came out of the map is visible in the map even on the rejection path
(which never calls `inMemoryCache.set`); a fresh `{count: 0, startTime: now}` object
that gets rejected is never inserted. -/
def memoryStep (windowMs max : Int) (mem : Cache) (key : String) (now : Int) :
    Decision × Cache :=
  let prev := mapGet mem key
  let item0 := prev.getD { count := 0, startTime := now }
  let item1 :=
    if now - item0.startTime > windowMs then { count := 0, startTime := now } else item0
  if (item1.count : Int) ≥ max then
    (Decision.rejected,
      if prev.isSome ∧ now - item0.startTime > windowMs then mapSet mem key item1 else mem)
  else
    (Decision.admitted,
      mapSet mem key { count := item1.count + 1, startTime := item1.startTime })

/-- A sequence of invocations for one key against the in-memory backend, at the given
arrival times; returns the decisions in order and the final cache. -/
def runMemory (windowMs max : Int) (key : String) : Cache → List Int → List Decision × Cache
  | mem, [] => ([], mem)
  | mem, t :: ts =>
    let s := memoryStep windowMs max mem key t
    let r := runMemory windowMs max key s.2 ts
    (s.1 :: r.1, r.2)

/-- A sequence of invocations for one key against the Redis backend, at the given
arrival times; returns the decisions in order and the final store. -/
def runRedis (windowMs max : Int) (key : String) : RedisStore → List Int → List Decision × RedisStore
  | store, [] => ([], store)
  | store, t :: ts =>
    let s := redisStep windowMs max store key t
    let r := runRedis windowMs max key s.2 ts
    (s.1 :: r.1, r.2)

/-- The request object, restricted to what the default key generator reads. -/
structure Request where
  ip : String
  deriving Repr, DecidableEq

/-- The default `keyGenerator = (req) => req.ip` (rateLimiter.js line 34); total,
hence modelled as always returning `Except.ok`. -/
def defaultKeyGenerator (req : Request) : Except String String :=
  Except.ok req.ip

/-- Which backend calls fail by throwing during one invocation
(e.g. a network failure talking to Redis). -/
structure BackendFaults where
  getFails : Bool
  execFails : Bool
  deriving Repr, DecidableEq

/-- Everything observable about one invocation of the middleware returned by
`rateLimiter`: whether the exceeded `handler` ran, whether `next()` was reached
(with no argument or, from the exceeded handler, with an error — `nextCalled` here
records the middleware's own bare `next()` calls of lines 77 and 81), whether the
`catch` block of lines 78–82 ran, and the resulting backend states. -/
structure InvokeOut where
  handlerCalled : Bool
  nextCalled : Bool
  errorCaught : Bool
  store : RedisStore
  mem : Cache
  deriving Repr, DecidableEq

/-- One invocation of the middleware returned by `rateLimiter(options)`
(rateLimiter.js lines 40–83), with the fallible collaborators made explicit:
`keyGenerator` may throw (`Except.error`), the configured `handler` may throw
(`handlerThrows`), and the two Redis round-trips may throw (`faults`). Every throw
lands in the `catch` block, which logs and calls `next()` — so the function is total
and an invocation never propagates an exception to the host. -/
def invoke (windowMs max : Int) (keyGenerator : Request → Except String String)
    (handlerThrows : Bool) (redisConnected : Bool) (faults : BackendFaults)
    (store : RedisStore) (mem : Cache) (req : Request) (now : Int) : InvokeOut :=
  match keyGenerator req with
  | Except.error _ =>
    { handlerCalled := false, nextCalled := true, errorCaught := true, store, mem }
  | Except.ok raw =>
    let key := "ratelimit:" ++ raw
    if redisConnected then
      if faults.getFails then
        { handlerCalled := false, nextCalled := true, errorCaught := true, store, mem }
      else
        match redisGet store key now with
        | some c =>
          if (c : Int) ≥ max then
            if handlerThrows then
              { handlerCalled := true, nextCalled := true, errorCaught := true, store, mem }
            else
              { handlerCalled := true, nextCalled := false, errorCaught := false, store, mem }
          else if faults.execFails then
            { handlerCalled := false, nextCalled := true, errorCaught := true, store, mem }
          else
            { handlerCalled := false, nextCalled := true, errorCaught := false,
              store := redisIncrExpire windowMs store key now, mem }
        | none =>
          if faults.execFails then
            { handlerCalled := false, nextCalled := true, errorCaught := true, store, mem }
          else
            { handlerCalled := false, nextCalled := true, errorCaught := false,
              store := redisIncrExpire windowMs store key now, mem }
    else
      match memoryStep windowMs max mem key now with
      | (Decision.rejected, mem1) =>
        if handlerThrows then
          { handlerCalled := true, nextCalled := true, errorCaught := true, store, mem := mem1 }
        else
          { handlerCalled := true, nextCalled := false, errorCaught := false, store, mem := mem1 }
      | (Decision.admitted, mem1) =>
        { handlerCalled := false, nextCalled := true, errorCaught := false, store, mem := mem1 }

/-- The numeric options of `rateLimiter(options)`; `none` models an absent property. -/
structure RateLimiterOptions where
  windowMs : Option Int := none
  max : Option Int := none
  deriving Repr, DecidableEq

/-- The numeric configuration a limiter instance closes over. -/
structure LimiterSettings where
  windowMs : Int
  max : Int
  deriving Repr, DecidableEq

/-- Construction (rateLimiter.js lines 30–38): destructure the options with defaults
`windowMs = 60_000`, `max = 60` and return the middleware. There is no validation of
any kind: construction always succeeds. -/
def rateLimiter (options : RateLimiterOptions) : LimiterSettings :=
  { windowMs := options.windowMs.getD 60000, max := options.max.getD 60 }

/-- One element of a Sequelize-style `errors` array: `{ field, message }`. -/
structure FieldError where
  field : String
  message : String
  deriving Repr, DecidableEq

/-- The shape of an error object as the branches of `errorHandler`
(errorHandler.js lines 8–93) inspect it: its `instanceof` class tags, `name`,
`message`, optional `statusCode`, optional `type`, `errors` array, optional
`code`, FK `fields`, and optional `stack`. -/
structure ErrShape where
  name : String
  message : String
  statusCode : Option Nat
  type : Option String
  errors : List FieldError
  code : Option String
  isSequelizeValidation : Bool
  isSequelizeUnique : Bool
  isSequelizeFK : Bool
  fkFields : String
  stack : Option String
  deriving Repr, DecidableEq

/-- The `error` object of the JSON error response: `type`, `message`, the
`details` array spread in only when non-empty, and the `stack` added only in
development. -/
structure ErrorBody where
  type : String
  message : String
  details : Option (List FieldError)
  stack : Option String
  deriving Repr, DecidableEq

/-- The HTTP response `res.status(statusCode).json({ error: … })` produces. -/
structure HttpResponse where
  status : Nat
  body : ErrorBody
  deriving Repr, DecidableEq

/-- JS truthiness of a possibly-absent number (`if (err.statusCode)`):
absent and `0` are falsy. -/
def numTruthy : Option Nat → Bool
  | some n => n ≠ 0
  | none => false

/-- `errorHandler(err, req, res, next)` (errorHandler.js lines 8–93): the branch
chain picking status/message/type/details, the final "use user-defined error
message if available" override, and the development-only stack attachment.
`devMode` models `process.env.NODE_ENV === 'development'`. -/
def errorHandler (devMode : Bool) (err : ErrShape) : HttpResponse :=
  let branch : Nat × String × String × List FieldError :=
    if err.isSequelizeValidation then
      (400, "Validation failed", "validation_error", err.errors)
    else if err.isSequelizeUnique then
      (409, "Duplicate entry", "conflict_error", err.errors)
    else if err.isSequelizeFK then
      (400, "Invalid reference", "reference_error",
        [{ field := err.fkFields, message := "Referenced entity does not exist" }])
    else if err.name = "JsonWebTokenError" ∨ err.name = "TokenExpiredError" then
      (401, if err.name = "TokenExpiredError" then "Token expired" else "Invalid token",
        "auth_error", [])
    else if numTruthy err.statusCode then
      (err.statusCode.getD 500, err.message,
        (match err.type with
         | some t => if t = "" then "custom_error" else t
         | none => "custom_error"),
        err.errors)
    else if err.code = some "ECONNREFUSED" then
      (500, "Database connection failed", "database_error", [])
    else
      (500, "Internal Server Error", "server_error", [])
  let errorMessage :=
    if err.message ≠ "" ∧ err.message ≠ "Internal Server Error" then err.message
    else branch.2.1
  { status := branch.1,
    body :=
      { type := branch.2.2.1,
        message := errorMessage,
        details := if branch.2.2.2 = [] then none else some branch.2.2.2,
        stack := if devMode && err.stack.isSome then err.stack else none } }

/-- `new AppError(message, statusCode, type, errors)` (errorHandler.js lines 99–108),
viewed through the fields `errorHandler` inspects: `name` is `"AppError"`, the
Sequelize `instanceof` checks and `code` do not apply. -/
def mkAppError (message : String) (statusCode : Nat) (type : String)
    (errors : List FieldError) : ErrShape :=
  { name := "AppError", message, statusCode := some statusCode, type := some type,
    errors, code := none, isSequelizeValidation := false, isSequelizeUnique := false,
    isSequelizeFK := false, fkFields := "", stack := none }

/-- The error the default exceeded handler passes to `next` (rateLimiter.js line 36):
`new AppError('Too many requests, please try again later', 429, 'rate_limit_error')`. -/
def rateLimitExceededError : ErrShape :=
  mkAppError "Too many requests, please try again later" 429 "rate_limit_error" []

/-- The accept/reject pattern of a windowed quota that currently stands at `c`
of `max`, over the next `n` requests with no intervening window reset: admit
while the count is below `max` (incrementing it), reject otherwise. Both backend
runs are proved equal to this. -/
def quota (max : Int) : Nat → Nat → List Decision
  | _, 0 => []
  | c, n + 1 =>
    if (c : Int) < max then Decision.admitted :: quota max (c + 1) n
    else Decision.rejected :: quota max c n

theorem mapGet_mapSet_self {α : Type} (m : List (String × α)) (key : String) (v : α) :
    mapGet (mapSet m key v) key = some v := by
  induction m with
  | nil => simp [mapGet, mapSet]
  | cons kv rest ih =>
    obtain ⟨k, w⟩ := kv
    by_cases h : k = key
    · simp [mapGet, mapSet, h]
    · simp [mapGet, mapSet, h, ih]

theorem mapGet_mapSet_ne {α : Type} (m : List (String × α)) (key key2 : String) (v : α)
    (h : key2 ≠ key) : mapGet (mapSet m key v) key2 = mapGet m key2 := by
  have h2 : ¬ key = key2 := Ne.symm h
  induction m with
  | nil => simp [mapGet, mapSet, h2]
  | cons kv rest ih =>
    obtain ⟨k, w⟩ := kv
    by_cases hk : k = key
    · subst hk
      simp [mapGet, mapSet, h2]
    · simp [mapGet, mapSet, hk, ih]

/-- A live, in-window in-memory entry: the step rejects without touching the cache
when the count has reached `max`, and otherwise increments in place. -/
theorem memoryStep_live (windowMs max : Int) (mem : Cache) (key : String) (now : Int)
    (c : Nat) (st : Int) (hmem : mapGet mem key = some { count := c, startTime := st })
    (hwin : now - st ≤ windowMs) :
    memoryStep windowMs max mem key now =
      if (c : Int) ≥ max then (Decision.rejected, mem)
      else (Decision.admitted, mapSet mem key { count := c + 1, startTime := st }) := by
  have hroll : ¬ now - st > windowMs := not_lt.mpr hwin
  simp only [memoryStep, hmem, Option.getD_some, hroll, if_false, Option.isSome_some,
    true_and, ite_false]

/-- A key with no in-memory entry: the first request creates the window and is
admitted whenever `max ≥ 1`, leaving `{count: 1, startTime: now}`. -/
theorem memoryStep_fresh (windowMs max : Int) (mem : Cache) (key : String) (now : Int)
    (hmem : mapGet mem key = none) (hmax : 1 ≤ max) :
    memoryStep windowMs max mem key now =
      (Decision.admitted, mapSet mem key { count := 1, startTime := now }) := by
  have hc : ¬ ((0 : Int) ≥ max) := by omega
  simp [memoryStep, hmem, hc]

/-- A live, unexpired Redis counter: the step rejects without touching the store when
the count has reached `max`, and otherwise increments and re-arms the expiry. -/
theorem redisStep_live (windowMs max : Int) (store : RedisStore) (key : String) (now : Int)
    (c : Nat) (e : Int) (hst : mapGet store key = some { value := c, expiresAt := e })
    (halive : now ≤ e) :
    redisStep windowMs max store key now =
      if (c : Int) ≥ max then (Decision.rejected, store)
      else (Decision.admitted, mapSet store key { value := c + 1, expiresAt := now + windowMs }) := by
  have hget : redisGet store key now = some c := by
    simp [redisGet, hst, halive]
  simp only [redisStep, redisIncrExpire, hget]

/-- A key absent (or already expired) in Redis: the request is admitted and the
counter restarts at 1 with a fresh expiry. -/
theorem redisStep_absent (windowMs max : Int) (store : RedisStore) (key : String) (now : Int)
    (hget : redisGet store key now = none) :
    redisStep windowMs max store key now =
      (Decision.admitted, mapSet store key { value := 1, expiresAt := now + windowMs }) := by
  simp only [redisStep, redisIncrExpire, hget]

theorem quota_exact (max : Int) :
    ∀ (n c : Nat), (c : Int) + (n : Int) = max →
      quota max c (n + 1) = List.replicate n Decision.admitted ++ [Decision.rejected] := by
  intro n
  induction n with
  | zero =>
    intro c h
    have : ¬ (c : Int) < max := by omega
    simp [quota, this]
  | succ n ih =>
    intro c h
    have hc : (c : Int) < max := by push_cast at h; omega
    have h2 : ((c + 1 : Nat) : Int) + (n : Int) = max := by push_cast at h ⊢; omega
    calc quota max c (n + 1 + 1)
        = Decision.admitted :: quota max (c + 1) (n + 1) := by rw [quota, if_pos hc]
      _ = Decision.admitted :: (List.replicate n Decision.admitted ++ [Decision.rejected]) := by
          rw [ih (c + 1) h2]
      _ = List.replicate (n + 1) Decision.admitted ++ [Decision.rejected] := by
          simp [List.replicate_succ]

/-- In-memory runs with no window rollover follow the `quota` pattern. -/
theorem runMemory_quota (windowMs max : Int) (key : String) (st : Int) :
    ∀ (ts : List Int) (mem : Cache) (c : Nat),
      mapGet mem key = some { count := c, startTime := st } →
      (∀ t ∈ ts, t - st ≤ windowMs) →
      (runMemory windowMs max key mem ts).1 = quota max c ts.length := by
  intro ts
  induction ts with
  | nil => intro mem c _ _; simp [runMemory, quota]
  | cons t ts ih =>
    intro mem c hmem hwin
    have hstep := memoryStep_live windowMs max mem key t c st hmem (hwin t (by simp))
    by_cases hc : (c : Int) ≥ max
    · rw [if_pos hc] at hstep
      have hrest := ih mem c hmem (fun u hu => hwin u (by simp [hu]))
      simp [runMemory, hstep, quota, not_lt.mpr hc, hrest]
    · rw [if_neg hc] at hstep
      have hmem2 : mapGet (mapSet mem key { count := c + 1, startTime := st }) key
          = some { count := c + 1, startTime := st } := mapGet_mapSet_self ..
      have hrest := ih (mapSet mem key { count := c + 1, startTime := st }) (c + 1) hmem2
        (fun u hu => hwin u (by simp [hu]))
      simp [runMemory, hstep, quota, not_le.mp hc, hrest]

/-- Redis runs whose requests all arrive before the bound `b`, where every re-armed
expiry again covers `b`, follow the `quota` pattern. -/
theorem runRedis_quota (windowMs max : Int) (key : String) (b : Int) :
    ∀ (ts : List Int) (store : RedisStore) (c : Nat) (e : Int),
      mapGet store key = some { value := c, expiresAt := e } →
      b ≤ e →
      (∀ t ∈ ts, t ≤ b ∧ b ≤ t + windowMs) →
      (runRedis windowMs max key store ts).1 = quota max c ts.length := by
  intro ts
  induction ts with
  | nil => intro store c e _ _ _; simp [runRedis, quota]
  | cons t ts ih =>
    intro store c e hst hbe hts
    have halive : t ≤ e := le_trans (hts t (by simp)).1 hbe
    have hstep := redisStep_live windowMs max store key t c e hst halive
    by_cases hc : (c : Int) ≥ max
    · rw [if_pos hc] at hstep
      have hrest := ih store c e hst hbe (fun u hu => hts u (by simp [hu]))
      simp [runRedis, hstep, quota, not_lt.mpr hc, hrest]
    · rw [if_neg hc] at hstep
      have hst2 : mapGet (mapSet store key { value := c + 1, expiresAt := t + windowMs }) key
          = some { value := c + 1, expiresAt := t + windowMs } := mapGet_mapSet_self ..
      have hrest := ih (mapSet store key { value := c + 1, expiresAt := t + windowMs }) (c + 1)
        (t + windowMs) hst2 (hts t (by simp)).2 (fun u hu => hts u (by simp [hu]))
      simp [runRedis, hstep, quota, not_le.mp hc, hrest]

/-- C1: for every key and limiter configuration (`max ≥ 1`), after exactly `max`
requests for that key have been admitted within one window (all arrivals within
`windowMs` of the first), the `(max+1)`th request for the same key within the same
window is rejected — the exceeded handler runs and `next()` is not reached
(`Decision.rejected`) — whichever backend is active. -/
theorem c1_max_plus_one_rejected (windowMs max : Int) (key : String) (t0 tlast : Int)
    (more : List Int) (hmax : 1 ≤ max) (hlen : (t0 :: more).length = max.toNat)
    (hmore : ∀ t ∈ more, t0 ≤ t ∧ t ≤ t0 + windowMs)
    (hlast : t0 ≤ tlast ∧ tlast ≤ t0 + windowMs) :
    (runMemory windowMs max key [] (t0 :: (more ++ [tlast]))).1
        = List.replicate max.toNat Decision.admitted ++ [Decision.rejected] ∧
    (runRedis windowMs max key [] (t0 :: (more ++ [tlast]))).1
        = List.replicate max.toNat Decision.admitted ++ [Decision.rejected] := by
  have hall : ∀ t ∈ more ++ [tlast], t0 ≤ t ∧ t ≤ t0 + windowMs := by
    intro t ht
    rcases List.mem_append.mp ht with h | h
    · exact hmore t h
    · simp only [List.mem_singleton] at h
      subst h
      exact hlast
  have hlen2 : more.length + 1 = max.toNat := by simpa using hlen
  have hmaxcast : ((max.toNat : Int)) = max := Int.toNat_of_nonneg (by omega)
  have h3 : (more.length : Int) + 1 = max := by
    rw [← hmaxcast]
    exact_mod_cast hlen2
  have hquota : quota max 1 (more ++ [tlast]).length
      = List.replicate more.length Decision.admitted ++ [Decision.rejected] := by
    have hl : (more ++ [tlast]).length = more.length + 1 := by simp
    rw [hl]
    exact quota_exact max more.length 1 (by push_cast; omega)
  constructor
  · have hm1 := memoryStep_fresh windowMs max [] key t0 rfl hmax
    have htail := runMemory_quota windowMs max key t0 (more ++ [tlast])
      (mapSet [] key { count := 1, startTime := t0 }) 1 (mapGet_mapSet_self ..)
      (fun t ht => by have := hall t ht; omega)
    calc (runMemory windowMs max key [] (t0 :: (more ++ [tlast]))).1
        = Decision.admitted :: (runMemory windowMs max key
            (mapSet [] key { count := 1, startTime := t0 }) (more ++ [tlast])).1 := by
          simp [runMemory, hm1]
      _ = Decision.admitted
            :: (List.replicate more.length Decision.admitted ++ [Decision.rejected]) := by
          rw [htail, hquota]
      _ = List.replicate max.toNat Decision.admitted ++ [Decision.rejected] := by
          rw [← hlen2, List.replicate_succ]
          simp
  · have hr1 := redisStep_absent windowMs max [] key t0 rfl
    have htail := runRedis_quota windowMs max key (t0 + windowMs) (more ++ [tlast])
      (mapSet [] key { value := 1, expiresAt := t0 + windowMs }) 1 (t0 + windowMs)
      (mapGet_mapSet_self ..) le_rfl (fun t ht => by have := hall t ht; omega)
    calc (runRedis windowMs max key [] (t0 :: (more ++ [tlast]))).1
        = Decision.admitted :: (runRedis windowMs max key
            (mapSet [] key { value := 1, expiresAt := t0 + windowMs }) (more ++ [tlast])).1 := by
          simp [runRedis, hr1]
      _ = Decision.admitted
            :: (List.replicate more.length Decision.admitted ++ [Decision.rejected]) := by
          rw [htail, hquota]
      _ = List.replicate max.toNat Decision.admitted ++ [Decision.rejected] := by
          rw [← hlen2, List.replicate_succ]
          simp

/-- C1 at a concrete input: `max = 2`, `windowMs = 1000`, requests at 0, 100, 200 ms. -/
theorem c1_max_plus_one_rejected_witness :
    (runMemory 1000 2 "ratelimit:a" [] (0 :: ([100] ++ [200]))).1
        = List.replicate (2 : Int).toNat Decision.admitted ++ [Decision.rejected] ∧
    (runRedis 1000 2 "ratelimit:a" [] (0 :: ([100] ++ [200]))).1
        = List.replicate (2 : Int).toNat Decision.admitted ++ [Decision.rejected] :=
  c1_max_plus_one_rejected 1000 2 "ratelimit:a" 0 200 [100] (by norm_num) (by decide)
    (by decide) (by decide)

/-- C2, counterexample to the claim as stated: with `windowMs = 1000`, `max = 1`, a
first request at t = 0 leaves window start 0, and at t = 1000 exactly `windowMs`
milliseconds have elapsed from the window start — yet the request is rejected,
because the reset condition is strict (`now - startTime > windowMs`). -/
theorem c2_counterexample :
    mapGet (runMemory 1000 1 "ratelimit:a" [] [0]).2 "ratelimit:a"
        = some { count := 1, startTime := 0 } ∧
    (1000 : Int) - 0 ≥ 1000 ∧
    (runMemory 1000 1 "ratelimit:a" [] [0, 1000]).1
        = [Decision.admitted, Decision.rejected] := by decide

/-- C2, amended: once STRICTLY more than `windowMs` milliseconds have elapsed from a
key's window start, the next request is admitted even if the previous count had
reached `max` (the entry is reset to count 0 with windowStart = now, then the
admission increments it to 1); and in the concrete scenario `max = 2`,
`windowMs = 1000` with requests at t = 0, 100, 200, 1100 ms the outcomes are
admitted, admitted, rejected, admitted. -/
theorem c2_window_rollover (windowMs max : Int) (mem : Cache) (key : String) (now : Int)
    (c : Nat) (st : Int) (hmem : mapGet mem key = some { count := c, startTime := st })
    (hroll : now - st > windowMs) (hmax : 1 ≤ max) :
    memoryStep windowMs max mem key now
        = (Decision.admitted, mapSet mem key { count := 1, startTime := now }) ∧
    (runMemory 1000 2 "ratelimit:K" [] [0, 100, 200, 1100]).1
        = [Decision.admitted, Decision.admitted, Decision.rejected, Decision.admitted] := by
  constructor
  · have hc : ¬ ((0 : Int) ≥ max) := by omega
    simp [memoryStep, hmem, hroll, hc]
  · decide

/-- C2 (amended) at a concrete input: an entry at count 5 whose window started at 0
is reset and admitted at t = 2000 with `windowMs = 1000`, `max = 2`. -/
theorem c2_window_rollover_witness :
    memoryStep 1000 2 [("k", { count := 5, startTime := 0 })] "k" 2000
        = (Decision.admitted, [("k", { count := 1, startTime := 2000 })]) ∧
    (runMemory 1000 2 "ratelimit:K" [] [0, 100, 200, 1100]).1
        = [Decision.admitted, Decision.admitted, Decision.rejected, Decision.admitted] :=
  c2_window_rollover 1000 2 [("k", { count := 5, startTime := 0 })] "k" 2000 5 0
    (by decide) (by decide) (by decide)

/-- C5, counterexample: with `windowMs = 1000`, `max = 2` and requests for one key at
t = 0, 900, 1100 ms, the in-memory backend admits all three (fixed window from the
first request, reset at t = 1100) while the Redis backend rejects the third (each
increment re-arms the expiry, so at t = 1100 the counter set at t = 900 is still
live at 2). The two backends are not externally indistinguishable. -/
theorem c5_counterexample :
    (runMemory 1000 2 "ratelimit:a" [] [0, 900, 1100]).1
        = [Decision.admitted, Decision.admitted, Decision.admitted] ∧
    (runRedis 1000 2 "ratelimit:a" [] [0, 900, 1100]).1
        = [Decision.admitted, Decision.admitted, Decision.rejected] ∧
    (runMemory 1000 2 "ratelimit:a" [] [0, 900, 1100]).1
        ≠ (runRedis 1000 2 "ratelimit:a" [] [0, 900, 1100]).1 := by decide

/-- C5, amended: for `max ≥ 1` and any request sequence for one key that stays
within one window (every arrival within `windowMs` of the first request), the
shared-store backend and the in-memory fallback produce the same sequence of
accept/reject decisions. -/
theorem c5_backends_agree_within_window (windowMs max : Int) (key : String) (t0 : Int)
    (rest : List Int) (hmax : 1 ≤ max)
    (hrest : ∀ t ∈ rest, t0 ≤ t ∧ t ≤ t0 + windowMs) :
    (runMemory windowMs max key [] (t0 :: rest)).1
        = (runRedis windowMs max key [] (t0 :: rest)).1 := by
  have hm1 := memoryStep_fresh windowMs max [] key t0 rfl hmax
  have hr1 := redisStep_absent windowMs max [] key t0 rfl
  have hmtail := runMemory_quota windowMs max key t0 rest
    (mapSet [] key { count := 1, startTime := t0 }) 1 (mapGet_mapSet_self ..)
    (fun t ht => by have := hrest t ht; omega)
  have hrtail := runRedis_quota windowMs max key (t0 + windowMs) rest
    (mapSet [] key { value := 1, expiresAt := t0 + windowMs }) 1 (t0 + windowMs)
    (mapGet_mapSet_self ..) le_rfl (fun t ht => by have := hrest t ht; omega)
  simp [runMemory, runRedis, hm1, hr1, hmtail, hrtail]

/-- C5 (amended) at a concrete input: both backends decide identically on requests
at 0, 100, 200 ms with `windowMs = 1000`, `max = 2`. -/
theorem c5_backends_agree_within_window_witness :
    (runMemory 1000 2 "ratelimit:a" [] (0 :: [100, 200])).1
        = (runRedis 1000 2 "ratelimit:a" [] (0 :: [100, 200])).1 :=
  c5_backends_agree_within_window 1000 2 "ratelimit:a" 0 [100, 200] (by norm_num) (by decide)

/-- C3: a Redis `GET` failure lands in the `catch` block: the error is logged,
`next()` is called, the handler is not, and both backend states are untouched. -/
theorem c3_fail_open (windowMs max : Int) (keyGenerator : Request → Except String String)
    (handlerThrows : Bool) (faults : BackendFaults) (store : RedisStore) (mem : Cache)
    (req : Request) (now : Int) (raw : String) (hkey : keyGenerator req = Except.ok raw) :
    (faults.getFails = true →
      invoke windowMs max keyGenerator handlerThrows true faults store mem req now
        = { handlerCalled := false, nextCalled := true, errorCaught := true, store, mem }) ∧
    (faults.getFails = false → faults.execFails = true →
      (∀ c, redisGet store ("ratelimit:" ++ raw) now = some c → (c : Int) < max) →
      invoke windowMs max keyGenerator handlerThrows true faults store mem req now
        = { handlerCalled := false, nextCalled := true, errorCaught := true, store, mem }) := by
  constructor
  · intro hg
    simp [invoke, hkey, hg]
  · intro hg he hc
    rcases hget : redisGet store ("ratelimit:" ++ raw) now with _ | c
    · simp [invoke, hkey, hg, he, hget]
    · have hlt := hc c hget
      simp [invoke, hkey, hg, he, hget, not_le.mpr hlt]

/-- C3 at a concrete input: the shared store's `GET` throws; the request is admitted. -/
theorem c3_fail_open_witness :
    invoke 60000 60 defaultKeyGenerator false true { getFails := true, execFails := false }
        [] [] { ip := "1.2.3.4" } 0
      = { handlerCalled := false, nextCalled := true, errorCaught := true,
          store := [], mem := [] } :=
  (c3_fail_open 60000 60 defaultKeyGenerator false { getFails := true, execFails := false }
    [] [] { ip := "1.2.3.4" } 0 "1.2.3.4" rfl).1 rfl

/-- C4: on the shared-store path, a present count `≥ max` rejects without touching the
store; otherwise the counter is incremented (created at 1 when absent/expired) and its
expiry re-armed to `windowMs/1000` seconds (= `windowMs` ms) from now in one atomic
`MULTI`/`EXEC` unit, and the invocation falls through to `next()` (`Decision.admitted`). -/
theorem c4_redis_path (windowMs max : Int) (store : RedisStore) (key : String) (now : Int) :
    (∀ c, redisGet store key now = some c → (c : Int) ≥ max →
      redisStep windowMs max store key now = (Decision.rejected, store)) ∧
    (∀ c, redisGet store key now = some c → (c : Int) < max →
      redisStep windowMs max store key now
        = (Decision.admitted, mapSet store key { value := c + 1, expiresAt := now + windowMs })) ∧
    (redisGet store key now = none →
      redisStep windowMs max store key now
        = (Decision.admitted, mapSet store key { value := 1, expiresAt := now + windowMs })) := by
  refine ⟨?_, ?_, ?_⟩
  · intro c hget hge
    simp [redisStep, hget, hge]
  · intro c hget hlt
    simp [redisStep, redisIncrExpire, hget, not_le.mpr hlt]
  · intro hget
    simp [redisStep, redisIncrExpire, hget]

/-- C4 at a concrete input: a stored count of 2 with `max = 2` is rejected and the
store is left unchanged. -/
theorem c4_redis_path_witness :
    redisStep 60000 2 [("ratelimit:a", { value := 2, expiresAt := 60000 })] "ratelimit:a" 0
      = (Decision.rejected, [("ratelimit:a", { value := 2, expiresAt := 60000 })]) :=
  (c4_redis_path 60000 2 [("ratelimit:a", { value := 2, expiresAt := 60000 })]
    "ratelimit:a" 0).1 2 (by decide) (by decide)

/-- C6: the code evaluated at the claim's failing inputs — `rateLimiter` performs no
construction-time validation at all, so non-positive `max` and `windowMs` are accepted
and a middleware is returned (the spec requires such configurations to be rejected at
construction time). -/
theorem c6_no_construction_validation :
    rateLimiter { windowMs := some 0, max := some 0 } = { windowMs := 0, max := 0 } ∧
    rateLimiter { windowMs := some (-5), max := some (-1) }
      = { windowMs := -5, max := -1 } := by decide

theorem memoryStep_mapGet_ne (windowMs max : Int) (mem : Cache) (key : String) (now : Int)
    (key2 : String) (hne : key2 ≠ key) :
    mapGet (memoryStep windowMs max mem key now).2 key2 = mapGet mem key2 := by
  simp only [memoryStep, apply_ite (Prod.snd (α := Decision) (β := Cache)),
    apply_ite (fun m => mapGet m key2), mapGet_mapSet_ne _ key key2 _ hne, ite_self]

theorem memoryStep_fst_eq (windowMs max : Int) (mem mem2 : Cache) (key : String) (now : Int)
    (h12 : mapGet mem key = mapGet mem2 key) :
    (memoryStep windowMs max mem key now).1 = (memoryStep windowMs max mem2 key now).1 := by
  simp only [memoryStep, h12, apply_ite (Prod.fst (α := Decision) (β := Cache))]

theorem redisStep_mapGet_ne (windowMs max : Int) (store : RedisStore) (key : String)
    (now : Int) (key2 : String) (hne : key2 ≠ key) :
    mapGet (redisStep windowMs max store key now).2 key2 = mapGet store key2 := by
  rcases hget : redisGet store key now with _ | c
  · simp [redisStep, redisIncrExpire, hget, mapGet_mapSet_ne _ key key2 _ hne]
  · by_cases hc : (c : Int) ≥ max <;>
      simp [redisStep, redisIncrExpire, hget, hc, mapGet_mapSet_ne _ key key2 _ hne]

theorem redisStep_fst_eq (windowMs max : Int) (store store2 : RedisStore) (key : String)
    (now : Int) (h12 : mapGet store key = mapGet store2 key) :
    (redisStep windowMs max store key now).1 = (redisStep windowMs max store2 key now).1 := by
  have hg : redisGet store key now = redisGet store2 key now := by
    unfold redisGet
    rw [h12]
  rcases hget : redisGet store2 key now with _ | c
  · simp [redisStep, hg, hget]
  · by_cases hc : (c : Int) ≥ max <;> simp [redisStep, hg, hget, hc]

/-- C7: processing a request for one key never changes the stored entry of a distinct
key, and the accept/reject decision for a key depends only on that key's own entry —
two states agreeing on a key decide it identically — in either backend. -/
theorem c7_key_isolation (windowMs max : Int) (key key2 : String) (now : Int)
    (mem mem2 : Cache) (store store2 : RedisStore) (hne : key2 ≠ key) :
    mapGet (memoryStep windowMs max mem key now).2 key2 = mapGet mem key2 ∧
    (mapGet mem key = mapGet mem2 key →
      (memoryStep windowMs max mem key now).1 = (memoryStep windowMs max mem2 key now).1) ∧
    mapGet (redisStep windowMs max store key now).2 key2 = mapGet store key2 ∧
    (mapGet store key = mapGet store2 key →
      (redisStep windowMs max store key now).1 = (redisStep windowMs max store2 key now).1) :=
  ⟨memoryStep_mapGet_ne windowMs max mem key now key2 hne,
   fun h => memoryStep_fst_eq windowMs max mem mem2 key now h,
   redisStep_mapGet_ne windowMs max store key now key2 hne,
   fun h => redisStep_fst_eq windowMs max store store2 key now h⟩

/-- C7 at a concrete input: serving `ratelimit:a` leaves `ratelimit:b`'s entry intact. -/
theorem c7_key_isolation_witness :
    mapGet (memoryStep 1000 2 [("ratelimit:b", { count := 3, startTime := 0 })]
        "ratelimit:a" 50).2 "ratelimit:b"
      = mapGet [("ratelimit:b", { count := 3, startTime := 0 })] "ratelimit:b" :=
  (c7_key_isolation 1000 2 "ratelimit:a" "ratelimit:b" 50
    [("ratelimit:b", { count := 3, startTime := 0 })] [] [] [] (by decide)).1

/-- C9: for the in-memory backend, if every stored entry's count is at most `max`,
that still holds after any invocation (counts are `Nat`, so `0 ≤ count` always);
moreover an invocation never increments an entry already at `max` inside a live
window — it rejects and leaves the cache unchanged. -/
theorem c9_count_invariant (windowMs max : Int) (mem : Cache) (key : String) (now : Int)
    (hinv : ∀ k e, mapGet mem k = some e → (e.count : Int) ≤ max) :
    (∀ k e, mapGet (memoryStep windowMs max mem key now).2 k = some e →
      (e.count : Int) ≤ max) ∧
    (∀ c st, mapGet mem key = some { count := c, startTime := st } → (c : Int) ≥ max →
      now - st ≤ windowMs →
      memoryStep windowMs max mem key now = (Decision.rejected, mem)) := by
  constructor
  · intro k e hk
    by_cases hkey : k = key
    · subst hkey
      rcases hprev : mapGet mem k with _ | e0
      · by_cases hc : (0 : Int) ≥ max
        · have hs : memoryStep windowMs max mem k now = (Decision.rejected, mem) := by
            simp [memoryStep, hprev, hc]
          rw [hs] at hk
          rw [hprev] at hk
          cases hk
        · have hs : memoryStep windowMs max mem k now
              = (Decision.admitted, mapSet mem k { count := 1, startTime := now }) := by
            simp [memoryStep, hprev, hc]
          rw [hs] at hk
          rw [mapGet_mapSet_self] at hk
          injection hk with h2
          subst h2
          simp only [Nat.cast_one]
          omega
      · have h0 := hinv k e0 hprev
        by_cases hroll : now - e0.startTime > windowMs
        · by_cases hc : (0 : Int) ≥ max
          · have hs : memoryStep windowMs max mem k now
                = (Decision.rejected, mapSet mem k { count := 0, startTime := now }) := by
              simp [memoryStep, hprev, hroll, hc]
            rw [hs] at hk
            rw [mapGet_mapSet_self] at hk
            injection hk with h2
            subst h2
            simp only [Nat.cast_zero]
            omega
          · have hs : memoryStep windowMs max mem k now
                = (Decision.admitted, mapSet mem k { count := 1, startTime := now }) := by
              simp [memoryStep, hprev, hroll, hc]
            rw [hs] at hk
            rw [mapGet_mapSet_self] at hk
            injection hk with h2
            subst h2
            simp only [Nat.cast_one]
            omega
        · by_cases hc : (e0.count : Int) ≥ max
          · have hs : memoryStep windowMs max mem k now = (Decision.rejected, mem) := by
              simp [memoryStep, hprev, hroll, hc]
            rw [hs] at hk
            exact hinv k e hk
          · have hs : memoryStep windowMs max mem k now
                = (Decision.admitted,
                    mapSet mem k { count := e0.count + 1, startTime := e0.startTime }) := by
              simp [memoryStep, hprev, hroll, hc]
            rw [hs] at hk
            rw [mapGet_mapSet_self] at hk
            injection hk with h2
            subst h2
            simp only [Nat.cast_add, Nat.cast_one]
            omega
    · rw [memoryStep_mapGet_ne windowMs max mem key now k hkey] at hk
      exact hinv k e hk
  · intro c st hmem hge hwin
    rw [memoryStep_live windowMs max mem key now c st hmem hwin, if_pos hge]

/-- C9 at a concrete input: an entry at count 2 of `max = 2` in a live window is
rejected and the cache is unchanged. -/
theorem c9_count_invariant_witness :
    memoryStep 1000 2 [("k", { count := 2, startTime := 0 })] "k" 500
      = (Decision.rejected, [("k", { count := 2, startTime := 0 })]) :=
  (c9_count_invariant 1000 2 [("k", { count := 2, startTime := 0 })] "k" 500
    (by
      intro k e h
      simp only [mapGet] at h
      split at h
      · injection h with h2
        subst h2
        decide
      · cases h)).2 2 0 (by decide) (by decide) (by decide)

/-- C10: every invocation of the middleware terminates in the exceeded handler or in
`next()` (the model is a total function, so no exception reaches the host); if
`keyGenerator` throws, the catch block admits the request with both states untouched;
if the handler itself throws, the catch block still calls `next()`. -/
theorem c10_invocation_total (windowMs max : Int)
    (keyGenerator : Request → Except String String) (handlerThrows redisConnected : Bool)
    (faults : BackendFaults) (store : RedisStore) (mem : Cache) (req : Request) (now : Int) :
    ((invoke windowMs max keyGenerator handlerThrows redisConnected faults store mem
        req now).handlerCalled = true ∨
      (invoke windowMs max keyGenerator handlerThrows redisConnected faults store mem
        req now).nextCalled = true) ∧
    (∀ msg, keyGenerator req = Except.error msg →
      invoke windowMs max keyGenerator handlerThrows redisConnected faults store mem req now
        = { handlerCalled := false, nextCalled := true, errorCaught := true, store, mem }) ∧
    (handlerThrows = true →
      (invoke windowMs max keyGenerator handlerThrows redisConnected faults store mem
        req now).handlerCalled = true →
      (invoke windowMs max keyGenerator handlerThrows redisConnected faults store mem
        req now).nextCalled = true ∧
      (invoke windowMs max keyGenerator handlerThrows redisConnected faults store mem
        req now).errorCaught = true) := by
  refine ⟨?_, ?_, ?_⟩
  · rcases hkg : keyGenerator req with msg | raw
    · simp [invoke, hkg]
    · cases redisConnected
      · rcases hms : memoryStep windowMs max mem ("ratelimit:" ++ raw) now with ⟨d, m2⟩
        cases d <;> cases handlerThrows <;> simp [invoke, hkg, hms]
      · cases hgf : faults.getFails
        · rcases hget : redisGet store ("ratelimit:" ++ raw) now with _ | c
          · cases hef : faults.execFails <;> simp [invoke, hkg, hgf, hget, hef]
          · by_cases hc : (c : Int) ≥ max
            · cases handlerThrows <;> simp [invoke, hkg, hgf, hget, hc]
            · cases hef : faults.execFails <;> simp [invoke, hkg, hgf, hget, hc, hef]
        · simp [invoke, hkg, hgf]
  · intro msg hkg
    simp [invoke, hkg]
  · intro hth
    rcases hkg : keyGenerator req with msg | raw
    · simp [invoke, hkg]
    · cases redisConnected
      · rcases hms : memoryStep windowMs max mem ("ratelimit:" ++ raw) now with ⟨d, m2⟩
        cases d <;> simp [invoke, hkg, hms, hth]
      · cases hgf : faults.getFails
        · rcases hget : redisGet store ("ratelimit:" ++ raw) now with _ | c
          · cases hef : faults.execFails <;> simp [invoke, hkg, hgf, hget, hef]
          · by_cases hc : (c : Int) ≥ max
            · simp [invoke, hkg, hgf, hget, hc, hth]
            · cases hef : faults.execFails <;> simp [invoke, hkg, hgf, hget, hc, hef]
        · simp [invoke, hkg, hgf]

/-- C10 at a concrete input: a throwing `keyGenerator` is caught and the request
is admitted with both backend states untouched. -/
theorem c10_invocation_total_witness :
    invoke 60000 60 (fun _ => Except.error "boom") false true
        { getFails := false, execFails := false } [] [] { ip := "1.2.3.4" } 0
      = { handlerCalled := false, nextCalled := true, errorCaught := true,
          store := [], mem := [] } :=
  (c10_invocation_total 60000 60 (fun _ => Except.error "boom") false true
    { getFails := false, execFails := false } [] [] { ip := "1.2.3.4" } 0).2.1 "boom" rfl

/-- C8: the error built by the default exceeded handler, passed through
`errorHandler`, yields HTTP status 429 and the body
`{ error: { type: "rate_limit_error", message: "Too many requests, please try again
later" } }` with no `details`; outside development mode the response is exactly
that object. -/
theorem c8_default_rejection_payload :
    (∀ (devMode : Bool) (s : Option String),
      (errorHandler devMode { rateLimitExceededError with stack := s }).status = 429 ∧
      (errorHandler devMode { rateLimitExceededError with stack := s }).body.type
          = "rate_limit_error" ∧
      (errorHandler devMode { rateLimitExceededError with stack := s }).body.message
          = "Too many requests, please try again later" ∧
      (errorHandler devMode { rateLimitExceededError with stack := s }).body.details
          = none) ∧
    errorHandler false rateLimitExceededError
      = { status := 429,
          body := { type := "rate_limit_error",
                    message := "Too many requests, please try again later",
                    details := none, stack := none } } := by
  have h1 : ¬ (("AppError" : String) = "JsonWebTokenError") := by decide
  have h2 : ¬ (("AppError" : String) = "TokenExpiredError") := by decide
  have h3 : ¬ (("rate_limit_error" : String) = "") := by decide
  have h4 : ¬ (("Too many requests, please try again later" : String) = "") := by decide
  have h5 : ¬ (("Too many requests, please try again later" : String)
      = "Internal Server Error") := by decide
  constructor
  · intro devMode s
    refine ⟨?_, ?_, ?_, ?_⟩ <;>
      simp [errorHandler, rateLimitExceededError, mkAppError, numTruthy, h1, h2, h3, h4, h5]
  · simp [errorHandler, rateLimitExceededError, mkAppError, numTruthy, h1, h2, h3, h4, h5]
